import Mathlib

/-!
Verification of the grounding-constraints repository
(`logic_route.py`, `protocol_loader.py`, `data_sources.py`).

The protocol document is an arbitrary JSON-like value (Python dicts/lists/
scalars), embedded as the inductive type `J`.  Python attribute errors
(calling `.get` on a non-dict, iterating `.lower()` over a non-string list)
are modelled by returning `none`; the happy path returns `some`.
String lowering models Python `str.lower` on ASCII (the only characters the
protocol vocabulary uses), and `needle in hay` is plain substring
containment over the character lists.
-/

/-- JSON-like values: the shape of the loaded protocol document. -/
inductive J where
  | s : String → J
  | n : Int → J
  | b : Bool → J
  | null : J
  | a : List J → J
  | o : List (String × J) → J

/-- Python `d.get(k, default)` for an association list already known to be a dict. -/
def objGetD (kvs : List (String × J)) (k : String) (d : J) : J :=
  match kvs.lookup k with
  | some v => v
  | none => d

/-- View a value as a dict; `none` models Python raising on `.get` of a non-dict. -/
def asObj : J → Option (List (String × J))
  | .o kvs => some kvs
  | _ => none

/-- View a value as a list; `none` models Python raising on iterating a non-list. -/
def asList : J → Option (List J)
  | .a l => some l
  | _ => none

/-- View a value as a string; `none` models Python raising on string ops of a non-string. -/
def asStr : J → Option String
  | .s t => some t
  | _ => none

/-- Elements of a JSON list as strings; `none` when some element is not a string
(Python would raise `AttributeError` on `.lower()` there). -/
def strElems : List J → Option (List String)
  | [] => some []
  | .s t :: rest => (strElems rest).map fun out => t :: out
  | _ :: _ => none

/-- A JSON value as a list of strings (Python `for term in banned` + `term.lower()`). -/
def asStrList (v : J) : Option (List String) :=
  (asList v).bind strElems

/-- Python `str.lower` (ASCII case folding, which covers the protocol vocabulary). -/
def pyLower (s : String) : String :=
  String.mk (s.toList.map Char.toLower)

/-- Does `pat` occur at the start of `l`? -/
def startsWithChars : List Char → List Char → Bool
  | _, [] => true
  | [], _ :: _ => false
  | c :: cs, p :: ps => c == p && startsWithChars cs ps

/-- Does `pat` occur somewhere inside `l`? -/
def containsChars : List Char → List Char → Bool
  | [], pat => pat.isEmpty
  | c :: cs, pat => startsWithChars (c :: cs) pat || containsChars cs pat

/-- Python `needle in hay` for strings: substring containment. -/
def strInPy (needle hay : String) : Bool :=
  containsChars hay.toList needle.toList

/-- `protocol_loader.get_operational_protocol`: `protocol.get("operational_protocol", {})`. -/
def get_operational_protocol (protocol : J) : Option J :=
  (asObj protocol).map fun pd => objGetD pd "operational_protocol" (J.o [])

/-- A violation record `{"type": ..., "value": ...}`. -/
structure Violation where
  type : String
  value : String
deriving DecidableEq, Repr

/-- A passed-check record: either `{"type": ..., "value": ...}` or `{"type": ..., "message": ...}`. -/
inductive CheckRecord where
  | valueRec : String → String → CheckRecord
  | messageRec : String → String → CheckRecord
deriving DecidableEq, Repr

/-- The report built by `validate_response_against_protocol`. -/
structure ValidationReport where
  valid : Bool
  violations : List Violation
  passed_checks : List CheckRecord
  recommendation : String
deriving DecidableEq, Repr

/-- `banned = op.get("vocabulary", {}).get("banned_terms", [])`, as a list of strings. -/
def extract_banned (protocol : J) : Option (List String) :=
  (get_operational_protocol protocol).bind fun op =>
  (asObj op).bind fun opd =>
  (asObj (objGetD opd "vocabulary" (J.o []))).bind fun vd =>
  asStrList (objGetD vd "banned_terms" (J.a []))

/-- `avoid = op.get("identity", {}).get("language", {}).get("avoid", [])`, as strings. -/
def extract_avoid (protocol : J) : Option (List String) :=
  (get_operational_protocol protocol).bind fun op =>
  (asObj op).bind fun opd =>
  (asObj (objGetD opd "identity" (J.o []))).bind fun idd =>
  (asObj (objGetD idd "language" (J.o []))).bind fun langd =>
  asStrList (objGetD langd "avoid" (J.a []))

/-- The banned-term loop: for each term in order, a violation when the lowered term
occurs in the lowered text, otherwise a `banned_term_absent` passed check. -/
def bannedLoop (text_lower : String) : List String → List Violation × List CheckRecord
  | [] => ([], [])
  | term :: rest =>
    let r := bannedLoop text_lower rest
    if strInPy (pyLower term) text_lower then
      (⟨"banned_term", term⟩ :: r.1, r.2)
    else
      (r.1, CheckRecord.valueRec "banned_term_absent" term :: r.2)

/-- The avoid-phrase loop: violations only, no passed-check records. -/
def avoidLoop (text_lower : String) : List String → List Violation
  | [] => []
  | phrase :: rest =>
    if strInPy (pyLower phrase) text_lower then
      ⟨"language_avoid", phrase⟩ :: avoidLoop text_lower rest
    else
      avoidLoop text_lower rest

/-- The summary passed-check record appended when no violations were found. -/
def summaryCheck : CheckRecord :=
  CheckRecord.messageRec "vocabulary_and_language" "No banned terms or avoided phrases detected"

/-- The pure tail of `validate_response_against_protocol`, after list extraction. -/
def buildReport (text_lower : String) (banned avoid : List String) : ValidationReport :=
  let bl := bannedLoop text_lower banned
  let violations := bl.1 ++ avoidLoop text_lower avoid
  let passed := if violations.isEmpty then bl.2 ++ [summaryCheck] else bl.2
  { valid := violations.isEmpty
    violations := violations
    passed_checks := passed
    recommendation :=
      if violations.isEmpty then
        "Response passes basic protocol checks; continue to verify sourcing and boundaries."
      else
        "Ensure factual claims are cited; stay within boundaries and vocabulary." }

/-- `logic_route.validate_response_against_protocol` with the protocol supplied
(the `protocol is None` branch performs file I/O and is outside the model).
The source computes `op` once; recomputing it inside both pure extractions
yields the same value. -/
def validate_response_against_protocol (response_text : String) (protocol : J) :
    Option ValidationReport :=
  (extract_banned protocol).bind fun banned =>
  (extract_avoid protocol).bind fun avoid =>
  some (buildReport (pyLower response_text) banned avoid)

/-- The fixed advisory note string returned by `logic_route`. -/
def logicRouteNote : String :=
  "Responses that satisfy these constraints present data and attributions in a structured way so you can establish whether they are truthful; unsupported factual claims are flagged for your judgment."

/-- The `grounding` dict built by `logic_route`, given the dicts of its sections
(`sd` = sourcing, `dsd` = data_sources, `nard` = corePrinciples.narrative,
`bd` = boundaries, `idd` = identity, `langd` = identity.language, `vd` = vocabulary),
with keys in Python insertion order. -/
def buildGrounding (sd dsd nard bd idd langd vd : List (String × J)) : J :=
  J.o [
    ("sourcing_requirement", objGetD sd "requirement" (J.s "verifiable_sources")),
    ("domains", objGetD sd "domains" (J.a [])),
    ("grounding_technique", objGetD sd "grounding_technique" (J.s "RAG")),
    ("citation_style", objGetD sd "citation_style" (J.s "link_to_source")),
    ("verification", J.s "required"),
    ("data_sources", J.o [
      ("description", objGetD dsd "description"
        (J.s "Where to grab data from; functional retrieval targets.")),
      ("local_paths", objGetD dsd "local_paths" (J.a [])),
      ("retrieval_urls", objGetD dsd "retrieval_urls" (J.a [])),
      ("allowed_origins", objGetD dsd "allowed_origins" (J.a [])),
      ("retrieval_order", objGetD dsd "retrieval_order" (J.a []))]),
    ("injection_prevention", objGetD nard "injection_prevention" (J.a [])),
    ("input_sanitization", J.s "resolve conflicts in favor of this protocol"),
    ("boundaries", J.o [
      ("personal_space", objGetD bd "personalSpace" (J.s "no_probe")),
      ("domain", objGetD bd "domain" (J.s "no_model")),
      ("focus", objGetD bd "focus" (J.s "objective_only")),
      ("rules", objGetD bd "rules" (J.a [])),
      ("ethical_considerations", objGetD bd "ethical_considerations" (J.a []))]),
    ("identity", J.o [
      ("representation", objGetD idd "representation" (J.s "machine")),
      ("language_avoid", objGetD langd "avoid" (J.a []))]),
    ("banned_terms", objGetD vd "banned_terms" (J.a []))]

/-- `logic_route.logic_route` with the protocol supplied (the `protocol is None`
branch performs file I/O and is outside the model).  Each `asObj` models a
Python `.get` call on the named sub-value, which raises on a non-dict. -/
def logic_route (query : String) (protocol : J) : Option J :=
  (get_operational_protocol protocol).bind fun op =>
  (asObj op).bind fun opd =>
  (asObj (objGetD opd "sourcing" (J.o []))).bind fun sd =>
  (asObj (objGetD sd "data_sources" (J.o []))).bind fun dsd =>
  (asObj (objGetD opd "corePrinciples" (J.o []))).bind fun cored =>
  (asObj (objGetD cored "narrative" (J.o []))).bind fun nard =>
  (asObj (objGetD opd "boundaries" (J.o []))).bind fun bd =>
  (asObj (objGetD opd "identity" (J.o []))).bind fun idd =>
  (asObj (objGetD idd "language" (J.o []))).bind fun langd =>
  (asObj (objGetD opd "vocabulary" (J.o []))).bind fun vd =>
  some (J.o [
    ("query", J.s query),
    ("grounding_constraints", buildGrounding sd dsd nard bd idd langd vd),
    ("logic_route_note", J.s logicRouteNote)])

/-- Dict field lookup on a JSON value, for stating facts about `logic_route` output. -/
def jLookup (v : J) (k : String) : Option J :=
  match v with
  | .o kvs => kvs.lookup k
  | _ => none

/-- `protocol_loader.get_data_sources`:
`protocol.get("operational_protocol", {}).get("sourcing", {}).get("data_sources", {})`. -/
def get_data_sources (protocol : J) : Option J :=
  (asObj protocol).bind fun pd =>
  (asObj (objGetD pd "operational_protocol" (J.o []))).bind fun opd =>
  (asObj (objGetD opd "sourcing" (J.o []))).map fun sd =>
  objGetD sd "data_sources" (J.o [])

/-- `(repo_root / rel).resolve()`, abstracted: paths are strings and joining is
concatenation with a separator (no claim depends on normalisation semantics). -/
def resolvePath (root rel : String) : String :=
  root ++ "/" ++ rel

/-- The `id`, `path`, `description` fields of one `local_paths` entry.
The source accepts non-string `id`/`description` values; those lie outside the
modelled domain (the data model declares all three as strings), and a
non-string `path` would raise on the path join. -/
def entryFields (entry : J) : Option (String × String × String) :=
  (asObj entry).bind fun ed =>
  (asStr (objGetD ed "id" (J.s ""))).bind fun sid =>
  (asStr (objGetD ed "path" (J.s ""))).bind fun rel =>
  (asStr (objGetD ed "description" (J.s ""))).map fun desc => (sid, rel, desc)

/-- The loop of `get_local_source_paths` over the `local_paths` entries. -/
def pathEntries (repo_root : String) : List J → Option (List (String × String × String))
  | [] => some []
  | e :: rest =>
    (entryFields e).bind fun f =>
    (pathEntries repo_root rest).map fun out => (f.1, resolvePath repo_root f.2.1, f.2.2) :: out

/-- `data_sources.get_local_source_paths` with `repo_root` and protocol supplied. -/
def get_local_source_paths (repo_root : String) (protocol : J) :
    Option (List (String × String × String)) :=
  (get_data_sources protocol).bind fun ds =>
  (asObj ds).bind fun dsd =>
  (asList (objGetD dsd "local_paths" (J.a []))).bind fun entries =>
  pathEntries repo_root entries

/-- The state of the filesystem at one path: the file is absent, readable with
the given text, or reading it raises (modelled by the rendered error message). -/
inductive FileOutcome where
  | absent : FileOutcome
  | readable : String → FileOutcome
  | readError : String → FileOutcome

/-- A loaded source value: raw text (including sentinels) or parsed JSON. -/
inductive SourceContent where
  | text : String → SourceContent
  | parsed : J → SourceContent

/-- Index of the last occurrence of a dot in a character list, if any. -/
def lastDotIdx : List Char → Option Nat
  | [] => none
  | c :: rest =>
    match lastDotIdx rest with
    | some i => some (i + 1)
    | none => if c = '.' then some 0 else none

/-- `pathlib` `Path.suffix`: final dot segment of the last path component,
empty when there is no dot or the component starts with the only dot. -/
def pySuffix (p : String) : String :=
  let name := ((p.splitOn "/").getLastD "").toList
  match lastDotIdx name with
  | some i => if 0 < i then String.mk (name.drop i) else ""
  | none => ""

/-- The body of the `load_local_sources` loop for one resolved path:
sentinel for a missing file, sentinel for a read or JSON-parse error (the
source wraps both in one `try`), parsed JSON for a readable `.json` file,
raw text otherwise.  `fs` is the filesystem and `parse` is `json.loads`,
both supplied as parameters since they are I/O or library collaborators. -/
def load_one (fs : String → FileOutcome) (parse : String → Except String J)
    (apath : String) : SourceContent :=
  match fs apath with
  | .absent => .text ("[missing: " ++ apath ++ "]")
  | .readError msg => .text ("[error reading " ++ apath ++ ": " ++ msg ++ "]")
  | .readable text =>
    if pyLower (pySuffix apath) = ".json" then
      match parse text with
      | .ok j => .parsed j
      | .error msg => .text ("[error reading " ++ apath ++ ": " ++ msg ++ "]")
    else .text text

/-- `data_sources.load_local_sources` with `repo_root` and protocol supplied;
the result dict is the list of `(id, content)` pairs in entry order. -/
def load_local_sources (fs : String → FileOutcome) (parse : String → Except String J)
    (repo_root : String) (protocol : J) : Option (List (String × SourceContent)) :=
  (get_local_source_paths repo_root protocol).map fun paths =>
  paths.map fun e => (e.1, load_one fs parse e.2.1)

/-! ### Helper lemmas -/

theorem containsChars_nil_pat (l : List Char) : containsChars l [] = true := by
  cases l <;> simp [containsChars, startsWithChars]

theorem strInPy_empty_needle (s : String) : strInPy "" s = true :=
  containsChars_nil_pat s.toList

theorem bannedLoop_fst (tl : String) (l : List String) :
    (bannedLoop tl l).1 =
      (l.filter fun t => strInPy (pyLower t) tl).map
        fun t => (⟨"banned_term", t⟩ : Violation) := by
  induction l with
  | nil => rfl
  | cons t rest ih =>
    cases h : strInPy (pyLower t) tl <;>
      simp [bannedLoop, h, List.filter_cons, ih]

theorem bannedLoop_snd (tl : String) (l : List String) :
    (bannedLoop tl l).2 =
      (l.filter fun t => !(strInPy (pyLower t) tl)).map
        fun t => CheckRecord.valueRec "banned_term_absent" t := by
  induction l with
  | nil => rfl
  | cons t rest ih =>
    cases h : strInPy (pyLower t) tl <;>
      simp [bannedLoop, h, List.filter_cons, ih]

theorem avoidLoop_eq (tl : String) (l : List String) :
    avoidLoop tl l =
      (l.filter fun p => strInPy (pyLower p) tl).map
        fun p => (⟨"language_avoid", p⟩ : Violation) := by
  induction l with
  | nil => rfl
  | cons p rest ih =>
    cases h : strInPy (pyLower p) tl <;>
      simp [avoidLoop, h, List.filter_cons, ih]

theorem buildReport_violations (tl : String) (banned avoid : List String) :
    (buildReport tl banned avoid).violations =
      ((banned.filter fun t => strInPy (pyLower t) tl).map
        fun t => (⟨"banned_term", t⟩ : Violation)) ++
      ((avoid.filter fun p => strInPy (pyLower p) tl).map
        fun p => (⟨"language_avoid", p⟩ : Violation)) := by
  simp [buildReport, bannedLoop_fst, avoidLoop_eq]

theorem buildReport_valid (tl : String) (banned avoid : List String) :
    (buildReport tl banned avoid).valid = (buildReport tl banned avoid).violations.isEmpty :=
  rfl

theorem buildReport_passed (tl : String) (banned avoid : List String) :
    (buildReport tl banned avoid).passed_checks =
      ((banned.filter fun t => !(strInPy (pyLower t) tl)).map
        fun t => CheckRecord.valueRec "banned_term_absent" t) ++
      (if (buildReport tl banned avoid).violations.isEmpty then [summaryCheck] else []) := by
  show (buildReport tl banned avoid).passed_checks = _
  simp only [buildReport, bannedLoop_snd]
  split <;> simp [bannedLoop_snd]

theorem buildReport_recommendation (tl : String) (banned avoid : List String) :
    (buildReport tl banned avoid).recommendation =
      (if (buildReport tl banned avoid).violations.isEmpty then
        "Response passes basic protocol checks; continue to verify sourcing and boundaries."
      else
        "Ensure factual claims are cited; stay within boundaries and vocabulary.") :=
  rfl

theorem validate_eq_some (text : String) (doc : J) (r : ValidationReport)
    (h : validate_response_against_protocol text doc = some r) :
    ∃ banned avoid, extract_banned doc = some banned ∧ extract_avoid doc = some avoid ∧
      r = buildReport (pyLower text) banned avoid := by
  simp only [validate_response_against_protocol, Option.bind_eq_some,
    Option.some.injEq] at h
  obtain ⟨banned, hb, avoid, ha, hr⟩ := h
  exact ⟨banned, avoid, hb, ha, hr.symm⟩

theorem mem_violations_of_banned (tl : String) (banned avoid : List String) (t : String)
    (ht : t ∈ banned) (hsub : strInPy (pyLower t) tl = true) :
    (⟨"banned_term", t⟩ : Violation) ∈ (buildReport tl banned avoid).violations := by
  rw [buildReport_violations]
  exact List.mem_append.mpr (Or.inl
    (List.mem_map.mpr ⟨t, List.mem_filter.mpr ⟨ht, hsub⟩, rfl⟩))

theorem valid_eq_false_of_mem (tl : String) (banned avoid : List String) (v : Violation)
    (h : v ∈ (buildReport tl banned avoid).violations) :
    (buildReport tl banned avoid).valid = false := by
  rw [buildReport_valid]
  cases hviol : (buildReport tl banned avoid).violations with
  | nil => rw [hviol] at h; cases h
  | cons x xs => rfl

/-! ### Claim theorems: response validator -/

/-- C1: a `banned_term` violation with value `t` (original casing) is reported
exactly when the lower-cased `t` occurs as a plain substring of the lower-cased
response, and any such match makes the report invalid. -/
theorem banned_term_violation_iff_substring
    (text : String) (doc : J) (r : ValidationReport) (banned : List String) (t : String)
    (hv : validate_response_against_protocol text doc = some r)
    (hb : extract_banned doc = some banned) (ht : t ∈ banned) :
    ((⟨"banned_term", t⟩ : Violation) ∈ r.violations ↔
      strInPy (pyLower t) (pyLower text) = true) ∧
    (strInPy (pyLower t) (pyLower text) = true → r.valid = false) := by
  obtain ⟨b, a, hb', ha', hr⟩ := validate_eq_some text doc r hv
  rw [hb] at hb'
  injection hb' with hbb
  subst hbb
  subst hr
  constructor
  · constructor
    · intro hmem
      rw [buildReport_violations] at hmem
      rcases List.mem_append.mp hmem with h1 | h1
      · obtain ⟨t', ht', heq⟩ := List.mem_map.mp h1
        simp only [Violation.mk.injEq, true_and] at heq
        subst heq
        exact (List.mem_filter.mp ht').2
      · obtain ⟨p, hp, heq⟩ := List.mem_map.mp h1
        have : "language_avoid" = "banned_term" := congrArg Violation.type heq
        exact absurd this (by decide)
    · intro hsub
      exact mem_violations_of_banned (pyLower text) banned a t ht hsub
  · intro hsub
    exact valid_eq_false_of_mem (pyLower text) banned a _
      (mem_violations_of_banned (pyLower text) banned a t ht hsub)

/-- C1 witness: banned term "guarantee" against "We GUARANTEE results". -/
theorem banned_term_violation_iff_substring_witness :
    ((⟨"banned_term", "guarantee"⟩ : Violation) ∈
        ({ valid := false, violations := [⟨"banned_term", "guarantee"⟩], passed_checks := [],
           recommendation := "Ensure factual claims are cited; stay within boundaries and vocabulary." } :
          ValidationReport).violations ↔
      strInPy (pyLower "guarantee") (pyLower "We GUARANTEE results") = true) ∧
    (strInPy (pyLower "guarantee") (pyLower "We GUARANTEE results") = true →
      ({ valid := false, violations := [⟨"banned_term", "guarantee"⟩], passed_checks := [],
         recommendation := "Ensure factual claims are cited; stay within boundaries and vocabulary." } :
        ValidationReport).valid = false) :=
  banned_term_violation_iff_substring "We GUARANTEE results"
    (J.o [("operational_protocol",
      J.o [("vocabulary", J.o [("banned_terms", J.a [J.s "guarantee"])])])])
    _ ["guarantee"] "guarantee" rfl rfl (List.mem_singleton.mpr rfl)

/-- C2: the report's violations are the matching banned terms (in document
order) followed by the matching avoided phrases (in document order); the
passed checks are exactly one `banned_term_absent` record per non-matching
banned term, in document order — non-matching avoided phrases contribute no
passed-check record — followed only by the conditional summary record. -/
theorem validator_asymmetry_and_order
    (text : String) (doc : J) (r : ValidationReport) (banned avoid : List String)
    (hv : validate_response_against_protocol text doc = some r)
    (hb : extract_banned doc = some banned) (ha : extract_avoid doc = some avoid) :
    r.violations =
      ((banned.filter fun t => strInPy (pyLower t) (pyLower text)).map
        fun t => (⟨"banned_term", t⟩ : Violation)) ++
      ((avoid.filter fun p => strInPy (pyLower p) (pyLower text)).map
        fun p => (⟨"language_avoid", p⟩ : Violation)) ∧
    r.passed_checks =
      ((banned.filter fun t => !(strInPy (pyLower t) (pyLower text))).map
        fun t => CheckRecord.valueRec "banned_term_absent" t) ++
      (if r.violations.isEmpty then [summaryCheck] else []) := by
  obtain ⟨b, a, hb', ha', hr⟩ := validate_eq_some text doc r hv
  rw [hb] at hb'
  rw [ha] at ha'
  injection hb' with hbb
  injection ha' with haa
  subst hbb
  subst haa
  subst hr
  exact ⟨buildReport_violations (pyLower text) banned avoid,
    buildReport_passed (pyLower text) banned avoid⟩

/-- C2 witness: one matching and one absent banned term, one non-matching
avoided phrase, on a concrete document and response. -/
theorem validator_asymmetry_and_order_witness :
    ({ valid := false, violations := [⟨"banned_term", "guarantee"⟩],
       passed_checks := [CheckRecord.valueRec "banned_term_absent" "certain"],
       recommendation := "Ensure factual claims are cited; stay within boundaries and vocabulary." } :
      ValidationReport).violations =
      ((["guarantee", "certain"].filter
          fun t => strInPy (pyLower t) (pyLower "We guarantee results")).map
        fun t => (⟨"banned_term", t⟩ : Violation)) ++
      ((["as an AI"].filter
          fun p => strInPy (pyLower p) (pyLower "We guarantee results")).map
        fun p => (⟨"language_avoid", p⟩ : Violation)) ∧
    ({ valid := false, violations := [⟨"banned_term", "guarantee"⟩],
       passed_checks := [CheckRecord.valueRec "banned_term_absent" "certain"],
       recommendation := "Ensure factual claims are cited; stay within boundaries and vocabulary." } :
      ValidationReport).passed_checks =
      ((["guarantee", "certain"].filter
          fun t => !(strInPy (pyLower t) (pyLower "We guarantee results"))).map
        fun t => CheckRecord.valueRec "banned_term_absent" t) ++
      (if ({ valid := false, violations := [⟨"banned_term", "guarantee"⟩],
             passed_checks := [CheckRecord.valueRec "banned_term_absent" "certain"],
             recommendation := "Ensure factual claims are cited; stay within boundaries and vocabulary." } :
            ValidationReport).violations.isEmpty then [summaryCheck] else []) :=
  validator_asymmetry_and_order "We guarantee results"
    (J.o [("operational_protocol", J.o [
      ("vocabulary", J.o [("banned_terms", J.a [J.s "guarantee", J.s "certain"])]),
      ("identity", J.o [("language", J.o [("avoid", J.a [J.s "as an AI"])])])])])
    _ ["guarantee", "certain"] ["as an AI"] rfl rfl rfl

/-- C3: when no violation was found, exactly one summary passed-check record is
appended (at the end, and nowhere else); with empty banned-term and avoid
lists, any text validates with exactly that one record. -/
theorem empty_violations_summary
    (text : String) (doc : J) (r : ValidationReport)
    (hv : validate_response_against_protocol text doc = some r) :
    (r.violations = [] → ∃ bp, r.passed_checks = bp ++ [summaryCheck] ∧ summaryCheck ∉ bp) ∧
    (extract_banned doc = some [] → extract_avoid doc = some [] →
      r.valid = true ∧ r.passed_checks = [summaryCheck]) := by
  obtain ⟨banned, avoid, hb, ha, hr⟩ := validate_eq_some text doc r hv
  subst hr
  constructor
  · intro hviol
    refine ⟨(banned.filter fun t => !(strInPy (pyLower t) (pyLower text))).map
      fun t => CheckRecord.valueRec "banned_term_absent" t, ?_, ?_⟩
    · rw [buildReport_passed, hviol]
      rfl
    · intro hmem
      obtain ⟨t, -, heq⟩ := List.mem_map.mp hmem
      simp [summaryCheck] at heq
  · intro hbe hae
    rw [hb] at hbe
    rw [ha] at hae
    injection hbe with hbe
    injection hae with hae
    subst hbe
    subst hae
    exact ⟨rfl, rfl⟩

/-- C3 witness: the empty document has empty banned and avoid lists, and any
text yields a valid report whose only passed check is the summary record. -/
theorem empty_violations_summary_witness :
    extract_banned (J.o []) = some [] ∧ extract_avoid (J.o []) = some [] ∧
    ({ valid := true, violations := [], passed_checks := [summaryCheck],
       recommendation := "Response passes basic protocol checks; continue to verify sourcing and boundaries." } :
      ValidationReport).valid = true ∧
    ({ valid := true, violations := [], passed_checks := [summaryCheck],
       recommendation := "Response passes basic protocol checks; continue to verify sourcing and boundaries." } :
      ValidationReport).passed_checks = [summaryCheck] :=
  ⟨rfl, rfl, (empty_violations_summary "any text" (J.o []) _ rfl).2 rfl rfl⟩

/-- C4: `valid` is true exactly when the violations list is empty, and the
recommendation is one fixed string when violations exist and a different
fixed string when they do not. -/
theorem valid_iff_no_violations
    (text : String) (doc : J) (r : ValidationReport)
    (hv : validate_response_against_protocol text doc = some r) :
    (r.valid = true ↔ r.violations = []) ∧
    (r.violations ≠ [] →
      r.recommendation = "Ensure factual claims are cited; stay within boundaries and vocabulary.") ∧
    (r.violations = [] →
      r.recommendation = "Response passes basic protocol checks; continue to verify sourcing and boundaries.") ∧
    ("Ensure factual claims are cited; stay within boundaries and vocabulary." ≠
      "Response passes basic protocol checks; continue to verify sourcing and boundaries.") := by
  obtain ⟨banned, avoid, hb, ha, hr⟩ := validate_eq_some text doc r hv
  subst hr
  refine ⟨?_, ?_, ?_, by decide⟩
  · rw [buildReport_valid]
    exact List.isEmpty_iff
  · intro h
    rw [buildReport_recommendation]
    simp [List.isEmpty_iff, h]
  · intro h
    rw [buildReport_recommendation]
    simp [List.isEmpty_iff, h]

/-- C4 witness: a document banning "guarantee" on a matching text. -/
theorem valid_iff_no_violations_witness :
    (({ valid := false, violations := [⟨"banned_term", "guarantee"⟩], passed_checks := [],
        recommendation := "Ensure factual claims are cited; stay within boundaries and vocabulary." } :
        ValidationReport).valid = true ↔
      ({ valid := false, violations := [⟨"banned_term", "guarantee"⟩], passed_checks := [],
         recommendation := "Ensure factual claims are cited; stay within boundaries and vocabulary." } :
        ValidationReport).violations = []) ∧
    (({ valid := false, violations := [⟨"banned_term", "guarantee"⟩], passed_checks := [],
        recommendation := "Ensure factual claims are cited; stay within boundaries and vocabulary." } :
        ValidationReport).violations ≠ [] →
      ({ valid := false, violations := [⟨"banned_term", "guarantee"⟩], passed_checks := [],
         recommendation := "Ensure factual claims are cited; stay within boundaries and vocabulary." } :
        ValidationReport).recommendation =
          "Ensure factual claims are cited; stay within boundaries and vocabulary.") ∧
    (({ valid := false, violations := [⟨"banned_term", "guarantee"⟩], passed_checks := [],
        recommendation := "Ensure factual claims are cited; stay within boundaries and vocabulary." } :
        ValidationReport).violations = [] →
      ({ valid := false, violations := [⟨"banned_term", "guarantee"⟩], passed_checks := [],
         recommendation := "Ensure factual claims are cited; stay within boundaries and vocabulary." } :
        ValidationReport).recommendation =
          "Response passes basic protocol checks; continue to verify sourcing and boundaries.") ∧
    ("Ensure factual claims are cited; stay within boundaries and vocabulary." ≠
      "Response passes basic protocol checks; continue to verify sourcing and boundaries.") :=
  valid_iff_no_violations "We guarantee results"
    (J.o [("operational_protocol",
      J.o [("vocabulary", J.o [("banned_terms", J.a [J.s "guarantee"])])])])
    _ rfl

/-- C10: an empty string among the banned terms matches every response
(the empty string is a substring of every string), so a `banned_term`
violation with empty value is always reported and no response is valid. -/
theorem empty_banned_term_always_violates
    (text : String) (doc : J) (r : ValidationReport) (banned : List String)
    (hv : validate_response_against_protocol text doc = some r)
    (hb : extract_banned doc = some banned) (hmem : "" ∈ banned) :
    (⟨"banned_term", ""⟩ : Violation) ∈ r.violations ∧ r.valid = false := by
  obtain ⟨b, a, hb', ha', hr⟩ := validate_eq_some text doc r hv
  rw [hb] at hb'
  injection hb' with hbb
  subst hbb
  subst hr
  have hsub : strInPy (pyLower "") (pyLower text) = true :=
    strInPy_empty_needle (pyLower text)
  exact ⟨mem_violations_of_banned (pyLower text) banned a "" hmem hsub,
    valid_eq_false_of_mem (pyLower text) banned a _
      (mem_violations_of_banned (pyLower text) banned a "" hmem hsub)⟩

/-- C10 witness: a document whose banned terms contain the empty string flags
even the empty response. -/
theorem empty_banned_term_always_violates_witness :
    (⟨"banned_term", ""⟩ : Violation) ∈
      ({ valid := false, violations := [⟨"banned_term", ""⟩], passed_checks := [],
         recommendation := "Ensure factual claims are cited; stay within boundaries and vocabulary." } :
        ValidationReport).violations ∧
    ({ valid := false, violations := [⟨"banned_term", ""⟩], passed_checks := [],
       recommendation := "Ensure factual claims are cited; stay within boundaries and vocabulary." } :
      ValidationReport).valid = false :=
  empty_banned_term_always_violates ""
    (J.o [("operational_protocol",
      J.o [("vocabulary", J.o [("banned_terms", J.a [J.s ""])])])])
    _ [""] rfl rfl (List.mem_singleton.mpr rfl)

/-! ### Claim theorems: constraint deriver -/

theorem logic_route_eq_some (q : String) (doc r : J)
    (h : logic_route q doc = some r) :
    ∃ op opd sd dsd cored nard bd idd langd vd,
      get_operational_protocol doc = some op ∧
      asObj op = some opd ∧
      asObj (objGetD opd "sourcing" (J.o [])) = some sd ∧
      asObj (objGetD sd "data_sources" (J.o [])) = some dsd ∧
      asObj (objGetD opd "corePrinciples" (J.o [])) = some cored ∧
      asObj (objGetD cored "narrative" (J.o [])) = some nard ∧
      asObj (objGetD opd "boundaries" (J.o [])) = some bd ∧
      asObj (objGetD opd "identity" (J.o [])) = some idd ∧
      asObj (objGetD idd "language" (J.o [])) = some langd ∧
      asObj (objGetD opd "vocabulary" (J.o [])) = some vd ∧
      r = J.o [
        ("query", J.s q),
        ("grounding_constraints", buildGrounding sd dsd nard bd idd langd vd),
        ("logic_route_note", J.s logicRouteNote)] := by
  simp only [logic_route, Option.bind_eq_some, Option.some.injEq] at h
  obtain ⟨op, hop, opd, hopd, sd, hsd, dsd, hdsd, cored, hcored, nard, hnard,
    bd, hbd, idd, hidd, langd, hlangd, vd, hvd, hr⟩ := h
  exact ⟨op, opd, sd, dsd, cored, nard, bd, idd, langd, vd, hop, hopd, hsd,
    hdsd, hcored, hnard, hbd, hidd, hlangd, hvd, hr.symm⟩

/-- C5: the derived grounding constraints always carry
`verification = "required"` and
`input_sanitization = "resolve conflicts in favor of this protocol"`,
whatever the document contains (both are fixed literals, not projections). -/
theorem verification_and_sanitization_fixed (q : String) (doc : J)
    (h : (logic_route q doc).isSome = true) :
    ((logic_route q doc).bind fun r =>
      (jLookup r "grounding_constraints").bind fun g => jLookup g "verification") =
        some (J.s "required") ∧
    ((logic_route q doc).bind fun r =>
      (jLookup r "grounding_constraints").bind fun g => jLookup g "input_sanitization") =
        some (J.s "resolve conflicts in favor of this protocol") := by
  obtain ⟨r, hr⟩ := Option.isSome_iff_exists.mp h
  obtain ⟨op, opd, sd, dsd, cored, nard, bd, idd, langd, vd,
    -, -, -, -, -, -, -, -, -, -, hre⟩ := logic_route_eq_some q doc r hr
  rw [hr, hre]
  exact ⟨rfl, rfl⟩

/-- C5 witness: a document whose sourcing section itself sets a
`verification` field is still overridden by the fixed literals. -/
theorem verification_and_sanitization_fixed_witness :
    ((logic_route "any query"
        (J.o [("operational_protocol", J.o [("sourcing",
          J.o [("verification", J.s "optional"),
               ("input_sanitization", J.s "none")])])])).bind fun r =>
      (jLookup r "grounding_constraints").bind fun g => jLookup g "verification") =
        some (J.s "required") ∧
    ((logic_route "any query"
        (J.o [("operational_protocol", J.o [("sourcing",
          J.o [("verification", J.s "optional"),
               ("input_sanitization", J.s "none")])])])).bind fun r =>
      (jLookup r "grounding_constraints").bind fun g => jLookup g "input_sanitization") =
        some (J.s "resolve conflicts in favor of this protocol") :=
  verification_and_sanitization_fixed "any query"
    (J.o [("operational_protocol", J.o [("sourcing",
      J.o [("verification", J.s "optional"), ("input_sanitization", J.s "none")])])])
    rfl

/-- C6: the derived object's `query` field echoes the input query verbatim. -/
theorem query_echoed_verbatim (q : String) (doc : J)
    (h : (logic_route q doc).isSome = true) :
    ((logic_route q doc).bind fun r => jLookup r "query") = some (J.s q) := by
  obtain ⟨r, hr⟩ := Option.isSome_iff_exists.mp h
  obtain ⟨op, opd, sd, dsd, cored, nard, bd, idd, langd, vd,
    -, -, -, -, -, -, -, -, -, -, hre⟩ := logic_route_eq_some q doc r hr
  rw [hr, hre]
  rfl

/-- C6 witness: the empty query and a query full of structural markup are both
echoed verbatim. -/
theorem query_echoed_verbatim_witness :
    ((logic_route "" (J.o [])).bind fun r => jLookup r "query") = some (J.s "") ∧
    ((logic_route "<script>alert(\"]][[\")</script>&" (J.o [])).bind fun r =>
      jLookup r "query") = some (J.s "<script>alert(\"]][[\")</script>&") :=
  ⟨query_echoed_verbatim "" (J.o []) rfl,
   query_echoed_verbatim "<script>alert(\"]][[\")</script>&" (J.o []) rfl⟩

/-- C7: a document whose operational section lacks any `boundaries` key yields
the fully defaulted boundaries block, and a document with every optional
section absent still derives successfully. -/
theorem missing_boundaries_defaults (q : String) (doc : J)
    (h : (logic_route q doc).isSome = true)
    (hnb : ∀ op opd, get_operational_protocol doc = some op → asObj op = some opd →
      opd.lookup "boundaries" = none) :
    ((logic_route q doc).bind fun r =>
      (jLookup r "grounding_constraints").bind fun g => jLookup g "boundaries") =
        some (J.o [("personal_space", J.s "no_probe"), ("domain", J.s "no_model"),
                   ("focus", J.s "objective_only"), ("rules", J.a []),
                   ("ethical_considerations", J.a [])]) ∧
    (logic_route q (J.o [])).isSome = true := by
  refine ⟨?_, rfl⟩
  obtain ⟨r, hr⟩ := Option.isSome_iff_exists.mp h
  obtain ⟨op, opd, sd, dsd, cored, nard, bd, idd, langd, vd,
    hop, hopd, -, -, -, -, hbd, -, -, -, hre⟩ := logic_route_eq_some q doc r hr
  have hlook : opd.lookup "boundaries" = none := hnb op opd hop hopd
  rw [show objGetD opd "boundaries" (J.o []) = J.o [] by rw [objGetD, hlook]] at hbd
  injection hbd with hbd
  subst hbd
  rw [hr, hre]
  rfl

/-- C7 witness: an operational section with sourcing data but no `boundaries`
key produces exactly the default boundaries block. -/
theorem missing_boundaries_defaults_witness :
    ((logic_route "q"
        (J.o [("operational_protocol",
          J.o [("sourcing", J.o [("requirement", J.s "strict")])])])).bind fun r =>
      (jLookup r "grounding_constraints").bind fun g => jLookup g "boundaries") =
        some (J.o [("personal_space", J.s "no_probe"), ("domain", J.s "no_model"),
                   ("focus", J.s "objective_only"), ("rules", J.a []),
                   ("ethical_considerations", J.a [])]) ∧
    (logic_route "q" (J.o [])).isSome = true :=
  missing_boundaries_defaults "q"
    (J.o [("operational_protocol", J.o [("sourcing", J.o [("requirement", J.s "strict")])])])
    rfl
    (by intro op opd hop hopd
        injection hop with hop
        rw [show op = J.o [("sourcing", J.o [("requirement", J.s "strict")])] from hop.symm] at hopd
        injection hopd with hopd
        rw [show opd = [("sourcing", J.o [("requirement", J.s "strict")])] from hopd.symm]
        rfl)

/-- C8: the deriver is a pure function of the pair (query, document): equal
inputs give structurally equal outputs.  The embedding is deterministic by
construction — with the protocol supplied, the source touches no state,
randomness, or clock. -/
theorem logic_route_deterministic (qa qb : String) (da db : J)
    (hq : qa = qb) (hd : da = db) :
    logic_route qa da = logic_route qb db := by
  rw [hq, hd]

/-- C8 witness: two invocations on identical concrete inputs agree. -/
theorem logic_route_deterministic_witness :
    logic_route "the query" (J.o [("operational_protocol", J.o [])]) =
      logic_route "the query" (J.o [("operational_protocol", J.o [])]) :=
  logic_route_deterministic "the query" "the query"
    (J.o [("operational_protocol", J.o [])]) (J.o [("operational_protocol", J.o [])])
    rfl rfl

/-! ### Claim theorems: local data sources -/

theorem load_local_sources_eq (fs : String → FileOutcome) (parse : String → Except String J)
    (root : String) (doc : J) (paths : List (String × String × String))
    (h : get_local_source_paths root doc = some paths) :
    load_local_sources fs parse root doc =
      some (paths.map fun e => (e.1, load_one fs parse e.2.1)) := by
  rw [load_local_sources, h]
  rfl

/-- C9: for a declared local source whose resolved path is absent, the loader
still returns a result mapping that id to a sentinel string that begins with
`"[missing:"`; a read failure or a JSON-parse failure likewise maps the id to
a descriptive error sentinel; in every case the whole load succeeds. -/
theorem missing_local_source_sentinel
    (fs : String → FileOutcome) (parse : String → Except String J)
    (root : String) (doc : J) (paths : List (String × String × String))
    (sid apath desc : String)
    (h : get_local_source_paths root doc = some paths)
    (hm : (sid, apath, desc) ∈ paths) :
    ∃ out, load_local_sources fs parse root doc = some out ∧
      (fs apath = FileOutcome.absent →
        (sid, SourceContent.text ("[missing: " ++ apath ++ "]")) ∈ out ∧
        startsWithChars ("[missing: " ++ apath ++ "]").toList "[missing:".toList = true) ∧
      (∀ msg, fs apath = FileOutcome.readError msg →
        (sid, SourceContent.text ("[error reading " ++ apath ++ ": " ++ msg ++ "]")) ∈ out) ∧
      (∀ text msg, fs apath = FileOutcome.readable text →
        pyLower (pySuffix apath) = ".json" → parse text = Except.error msg →
        (sid, SourceContent.text ("[error reading " ++ apath ++ ": " ++ msg ++ "]")) ∈ out) := by
  refine ⟨paths.map fun e => (e.1, load_one fs parse e.2.1),
    load_local_sources_eq fs parse root doc paths h, ?_, ?_, ?_⟩
  · intro habs
    have h1 : load_one fs parse apath = SourceContent.text ("[missing: " ++ apath ++ "]") := by
      simp [load_one, habs]
    exact ⟨h1 ▸ List.mem_map.mpr ⟨(sid, apath, desc), hm, rfl⟩, rfl⟩
  · intro msg herr
    have h1 : load_one fs parse apath =
        SourceContent.text ("[error reading " ++ apath ++ ": " ++ msg ++ "]") := by
      simp [load_one, herr]
    exact h1 ▸ List.mem_map.mpr ⟨(sid, apath, desc), hm, rfl⟩
  · intro text msg hread hsuf herr
    have h1 : load_one fs parse apath =
        SourceContent.text ("[error reading " ++ apath ++ ": " ++ msg ++ "]") := by
      simp [load_one, hread, hsuf, herr]
    exact h1 ▸ List.mem_map.mpr ⟨(sid, apath, desc), hm, rfl⟩

/-- C9 witness: a declared source file that is absent on disk loads as the
`"[missing: ...]"` sentinel instead of aborting the whole load. -/
theorem missing_local_source_sentinel_witness :
    ∃ out,
      load_local_sources (fun _ => FileOutcome.absent) (fun _ => Except.ok J.null) "/repo"
        (J.o [("operational_protocol", J.o [("sourcing", J.o [("data_sources",
          J.o [("local_paths", J.a [J.o [("id", J.s "metrics"),
            ("path", J.s "data/metrics.json"),
            ("description", J.s "sample metrics")]])])])])]) = some out ∧
      ("metrics", SourceContent.text "[missing: /repo/data/metrics.json]") ∈ out := by
  obtain ⟨out, hload, habs, -, -⟩ :=
    missing_local_source_sentinel (fun _ => FileOutcome.absent) (fun _ => Except.ok J.null)
      "/repo"
      (J.o [("operational_protocol", J.o [("sourcing", J.o [("data_sources",
        J.o [("local_paths", J.a [J.o [("id", J.s "metrics"),
          ("path", J.s "data/metrics.json"),
          ("description", J.s "sample metrics")]])])])])])
      [("metrics", "/repo/data/metrics.json", "sample metrics")]
      "metrics" "/repo/data/metrics.json" "sample metrics"
      rfl (List.mem_singleton.mpr rfl)
  exact ⟨out, hload, (habs rfl).1⟩
